import Mathlib

/-!
Shallow embedding of the gitstack backend's snapshot/tree engine
(`src/controllers/codeController.ts`) and proofs of the specification's
claims about it.

The relational store is modelled as explicit lists of rows, the blob store
as an association list from storage keys to byte lists, and each HTTP
handler as a pure function from the database state (plus its request
fields) to a result record carrying the HTTP status, the optionally
created snapshot id and the successor state.  The SHA-256 digest and the
base64 codec are external collaborators of the repository; the digest is
therefore a parameter `sha : Bytes → String` of every operation that
hashes, and `content` fields hold the already base64-decoded bytes.
Supabase upload outcomes are an input (`uploadOk : Bool`) of the
operations that upload, since the blob store's failures are external.
-/

namespace GitStack

/-- File content as a list of byte values. -/
abbrev Bytes := List Nat

/-- One row of `snapshot_files`: `(path, hash, size, mode)`. -/
structure FileRec where
  path : String
  hash : String
  size : Nat
  mode : Nat
deriving DecidableEq, Repr

/-- One row of `snapshots`. -/
structure Snap where
  id : Nat
  projectId : String
  userId : String
  title : String
  timestamp : Nat
  fileCount : Nat
deriving DecidableEq, Repr

/-- One row of `branches`; `head` is the nullable `head_snapshot_id`. -/
structure BranchRow where
  projectId : String
  name : String
  head : Option Nat
  updatedAt : Nat
deriving DecidableEq, Repr

/-- The whole state: relational tables, the blob store, the id sequence of
the `snapshots` table and the wall clock (`Date.now()`). -/
structure DB where
  snaps : List Snap
  snapFiles : List (Nat × FileRec)
  branches : List BranchRow
  blobStore : List (String × Bytes)
  nextId : Nat
  now : Nat
deriving DecidableEq, Repr

/-- `SELECT ... FROM branches WHERE project_id = $1 AND name = $2 LIMIT 1`. -/
def findBranch (db : DB) (p b : String) : Option BranchRow :=
  db.branches.find? (fun r => decide (r.projectId = p ∧ r.name = b))

/-- The snapshots of one project. -/
def projectSnaps (db : DB) (p : String) : List Snap :=
  db.snaps.filter (fun s => decide (s.projectId = p))

/-- Modelled from the spec: the SQL view `latest_project_snapshot` is not
among the repository's files (only `codeController.ts` queries it); the
spec describes it as "the most recent snapshot for the project ordered by
timestamp descending, returning null if the project has no snapshots at
all". -/
def latest_project_snapshot (db : DB) (p : String) : Option Nat :=
  match projectSnaps db p with
  | [] => none
  | s :: rest =>
    some ((rest.foldl (fun best t => if best.timestamp < t.timestamp then t else best) s).id)

/-- `resolveSnapshotId`: branch head when the branch is given, found and
its head pointer non-null, else the latest project snapshot.  A supplied
empty branch name is falsy in the source (`if (branch)`), so it also falls
back. -/
def resolveSnapshotId (db : DB) (projectId : String) (branch : Option String) : Option Nat :=
  match branch with
  | some b =>
    if b = "" then latest_project_snapshot db projectId
    else
      match findBranch db projectId b with
      | some r =>
        match r.head with
        | some h => some h
        | none => latest_project_snapshot db projectId
      | none => latest_project_snapshot db projectId
  | none => latest_project_snapshot db projectId

/-- `SELECT path, hash, size, mode FROM snapshot_files WHERE snapshot_id = $1`. -/
def getFilesInSnapshot (db : DB) (sid : Nat) : List FileRec :=
  (db.snapFiles.filter (fun e => decide (e.1 = sid))).map Prod.snd

/-- The mutators' shared preamble: resolve the current snapshot of the
branch and read its files, or start from the empty list. -/
def currentFiles (db : DB) (p b : String) : List FileRec :=
  match resolveSnapshotId db p (some b) with
  | some sid => getFilesInSnapshot db sid
  | none => []

/-- `createNewSnapshot`: insert the snapshot row (taking the next id of the
sequence) and one `snapshot_files` row per file, returning the new id. -/
def createNewSnapshot (db : DB) (projectId userId : String) (files : List FileRec)
    (title : String) : Nat × DB :=
  (db.nextId,
   { db with
       snaps := db.snaps ++ [⟨db.nextId, projectId, userId, title, db.now, files.length⟩],
       snapFiles := db.snapFiles ++ files.map (fun f => (db.nextId, f)),
       nextId := db.nextId + 1 })

/-- `updateBranchHead`: `UPDATE branches SET head_snapshot_id = $1,
updated_at = $2 WHERE project_id = $3 AND name = $4`. -/
def updateBranchHead (db : DB) (projectId branch : String) (sid : Nat) : DB :=
  { db with
      branches := db.branches.map (fun r =>
        if r.projectId = projectId ∧ r.name = branch then
          { r with head := some sid, updatedAt := db.now }
        else r) }

/-- Blob-store download by key. -/
def lookupBlob : List (String × Bytes) → String → Option Bytes
  | [], _ => none
  | (k, v) :: rest, key => if k = key then some v else lookupBlob rest key

/-- Blob-store upload with `upsert: true`. -/
def upsertBlob (store : List (String × Bytes)) (key : String) (v : Bytes) :
    List (String × Bytes) :=
  store.filter (fun e => decide (e.1 ≠ key)) ++ [(key, v)]

/-- What a mutation handler returns: HTTP status, the created snapshot id
(`none` on any failure path) and the successor state. -/
structure OpOut where
  status : Nat
  snapshotId : Option Nat
  db : DB
deriving DecidableEq, Repr

/-- `createFile`: validate, read the current file set, hash the decoded
content, overwrite-by-path, upload the blob at key `{projectId}/{hash}`
(hard failure: a failed upload throws, the transaction rolls back and the
handler answers 500), insert the new snapshot and advance the branch
head. -/
def createFile (sha : Bytes → String) (db : DB) (projectId branch filePath : String)
    (content : Bytes) (userId : String) (uploadOk : Bool) : OpOut :=
  if branch = "" ∨ filePath = "" ∨ userId = "" then ⟨400, none, db⟩
  else
    let existingFiles := currentFiles db projectId branch
    let newFile : FileRec := ⟨filePath, sha content, content.length, 644⟩
    let allFiles := existingFiles.filter (fun f => decide (f.path ≠ filePath)) ++ [newFile]
    if uploadOk then
      let db1 := { db with
        blobStore := upsertBlob db.blobStore (projectId ++ "/" ++ sha content) content }
      let next := createNewSnapshot db1 projectId userId allFiles
        ("Create file: " ++ filePath)
      ⟨201, some next.1, updateBranchHead next.2 projectId branch next.1⟩
    else ⟨500, none, db⟩

/-- Models Node `path.join(folderPath, ".gitkeep")` for folder paths
without `.`/`..` segments (the dashboard passes normalized relative
paths): trailing slashes are dropped, then `"/.gitkeep"` is appended. -/
def gitkeepPathOf (folderPath : String) : String :=
  String.mk ((folderPath.toList.reverse.dropWhile (fun c => decide (c = '/'))).reverse)
    ++ "/.gitkeep"

/-- `createFolder`: same shape as `createFile` but the inserted row is the
zero-byte `.gitkeep` placeholder, and a failed placeholder upload is only
logged — the snapshot is still created and the handler still answers
201. -/
def createFolder (sha : Bytes → String) (db : DB) (projectId branch folderPath userId : String)
    (uploadOk : Bool) : OpOut :=
  if branch = "" ∨ folderPath = "" ∨ userId = "" then ⟨400, none, db⟩
  else
    let existingFiles := currentFiles db projectId branch
    let gk := gitkeepPathOf folderPath
    let newGitkeep : FileRec := ⟨gk, sha [], 0, 644⟩
    let allFiles := existingFiles.filter (fun f => decide (f.path ≠ gk)) ++ [newGitkeep]
    let db1 := if uploadOk then
        { db with blobStore := upsertBlob db.blobStore (projectId ++ "/" ++ sha []) [] }
      else db
    let next := createNewSnapshot db1 projectId userId allFiles
      ("Create folder: " ++ folderPath)
    ⟨201, some next.1, updateBranchHead next.2 projectId branch next.1⟩

/-- JavaScript `String.prototype.startsWith`. -/
def strStartsWith (s pre : String) : Bool :=
  pre.toList.isPrefixOf s.toList

/-- JavaScript `String.prototype.endsWith`. -/
def strEndsWith (s suf : String) : Bool :=
  suf.toList.isSuffixOf s.toList

/-- `deleteFile`: 404 when no snapshot resolves or the exact path is not in
the current file set (the transaction is rolled back, so the state is
returned unchanged); otherwise persist the filtered set as a new snapshot
and advance the head.  No blob-store call is made. -/
def deleteFile (db : DB) (projectId branch filePath userId : String) : OpOut :=
  if branch = "" ∨ filePath = "" ∨ userId = "" then ⟨400, none, db⟩
  else
    match resolveSnapshotId db projectId (some branch) with
    | none => ⟨404, none, db⟩
    | some cur =>
      let existingFiles := getFilesInSnapshot db cur
      let updatedFiles := existingFiles.filter (fun f => decide (f.path ≠ filePath))
      if existingFiles.length = updatedFiles.length then ⟨404, none, db⟩
      else
        let next := createNewSnapshot db projectId userId updatedFiles
          ("Delete file: " ++ filePath)
        ⟨200, some next.1, updateBranchHead next.2 projectId branch next.1⟩

/-- `deleteFolder`: like `deleteFile` but removing every row whose path
starts with the slash-terminated folder path. -/
def deleteFolder (db : DB) (projectId branch folderPath userId : String) : OpOut :=
  if branch = "" ∨ folderPath = "" ∨ userId = "" then ⟨400, none, db⟩
  else
    match resolveSnapshotId db projectId (some branch) with
    | none => ⟨404, none, db⟩
    | some cur =>
      let existingFiles := getFilesInSnapshot db cur
      let folderPre := if strEndsWith folderPath "/" then folderPath else folderPath ++ "/"
      let updatedFiles := existingFiles.filter (fun f => !(strStartsWith f.path folderPre))
      if existingFiles.length = updatedFiles.length then ⟨404, none, db⟩
      else
        let next := createNewSnapshot db projectId userId updatedFiles
          ("Delete folder: " ++ folderPath)
        ⟨200, some next.1, updateBranchHead next.2 projectId branch next.1⟩

/-- What `getBlob` answers: status, the metadata columns of the file row
and the downloaded bytes (`none` when the download found nothing). -/
structure BlobOut where
  status : Nat
  path : Option String
  hash : Option String
  size : Option Nat
  mode : Option Nat
  content : Option Bytes
deriving DecidableEq, Repr

/-- `getBlob`: resolve the snapshot, look the exact path up, then download
from storage key `{projectId}/{snapshotId}/{hash}`; a failed download
still answers 200 with the metadata and a null `content`. -/
def getBlob (db : DB) (projectId : String) (branch : Option String) (filePath : String) :
    BlobOut :=
  match resolveSnapshotId db projectId branch with
  | none => ⟨404, none, none, none, none, none⟩
  | some sid =>
    match (getFilesInSnapshot db sid).find? (fun f => decide (f.path = filePath)) with
    | none => ⟨404, none, none, none, none, none⟩
    | some f =>
      ⟨200, some f.path, some f.hash, some f.size, some f.mode,
        lookupBlob db.blobStore (projectId ++ "/" ++ toString sid ++ "/" ++ f.hash)⟩

/-- `getTree`'s base-path normalization: `path.replace(/^\/+|\/+$/g, '')`. -/
def stripSlashes (s : String) : String :=
  String.mk
    (((s.toList.dropWhile (fun c => decide (c = '/'))).reverse.dropWhile
        (fun c => decide (c = '/'))).reverse)

/-- PostgreSQL `LIKE` matching with the default escape character `\`:
`%` matches any sequence, `_` any single character, a backslash followed
by any character matches that character literally, everything else
itself.  A pattern ending in a dangling escape raises an error in
PostgreSQL; it is modelled as matching nothing, and cannot arise from
`getTree`, whose patterns always end in a scanned `%`. -/
def likeMatch (ps s : List Char) : Bool :=
  match ps, s with
  | [], s => s.isEmpty
  | p :: ps2, s =>
    if p = '\\' then
      match ps2, s with
      | [], _ => false
      | _ :: _, [] => false
      | e :: ps3, c :: s2 => decide (e = c) && likeMatch ps3 s2
    else if p = '%' then
      likeMatch ps2 s ||
        (match s with
         | [] => false
         | _ :: s2 => likeMatch (p :: ps2) s2)
    else
      match s with
      | [] => false
      | c :: s2 =>
        if p = '_' then likeMatch ps2 s2
        else decide (p = c) && likeMatch ps2 s2
termination_by (s.length, ps.length)

/-- The `likePrefix` that `getTree` interpolates into its `LIKE` pattern. -/
def getTreeLikePre (basePath : String) : String :=
  let b := stripSlashes basePath
  if b = "" then "" else b ++ "/"

/-- The row selection of `getTree`: `... WHERE snapshot_id = $1 AND path
LIKE $2 || '%'` with `$2` the unescaped `likePrefix` (the `ORDER BY path`
only permutes the selection and is not modelled). -/
def getTreeSelectedRows (db : DB) (sid : Nat) (basePath : String) : List FileRec :=
  (getFilesInSnapshot db sid).filter
    (fun f => likeMatch (getTreeLikePre basePath ++ "%").toList f.path.toList)

/-! ## Invariants and mutation sequencing -/

/-- Well-formedness of the id sequence: every persisted snapshot id (as a
snapshot row id or a `snapshot_files` key) is below `nextId`, so the next
insert takes a fresh id. -/
def DBWF (db : DB) : Prop :=
  (∀ s ∈ db.snaps, s.id < db.nextId) ∧ ∀ e ∈ db.snapFiles, e.1 < db.nextId

/-- Within every snapshot, `path` values are pairwise distinct. -/
def snapshotPathsNodup (db : DB) : Prop :=
  ∀ sid : Nat, ((getFilesInSnapshot db sid).map FileRec.path).Nodup

/-- One logical change of the Snapshot Mutator. -/
inductive Mut where
  | mkFile (path : String) (content : Bytes) (uploadOk : Bool)
  | mkFolder (path : String) (uploadOk : Bool)
  | rmFile (path : String)
  | rmFolder (path : String)
deriving DecidableEq, Repr

/-- Dispatch one mutation request against one project and branch. -/
def applyMut (sha : Bytes → String) (projectId branch userId : String) (db : DB) :
    Mut → OpOut
  | .mkFile path c ok => createFile sha db projectId branch path c userId ok
  | .mkFolder path ok => createFolder sha db projectId branch path userId ok
  | .rmFile path => deleteFile db projectId branch path userId
  | .rmFolder path => deleteFolder db projectId branch path userId

/-- The create/update mutations (as opposed to the delete ones). -/
def Mut.isCreate : Mut → Bool
  | .mkFile .. => true
  | .mkFolder .. => true
  | _ => false

/-- The state after a list of mutation requests, applied one at a time. -/
def applySeq (sha : Bytes → String) (p b u : String) (db : DB) (ms : List Mut) : DB :=
  ms.foldl (fun d m => (applyMut sha p b u d m).db) db

/-- The pure file-set delta each mutation describes: one path
replaced/added, one `.gitkeep` added, one path removed, or one prefix
subtree removed. -/
def mutDelta (sha : Bytes → String) (m : Mut) (files : List FileRec) : List FileRec :=
  match m with
  | .mkFile path c _ =>
      files.filter (fun f => decide (f.path ≠ path)) ++ [⟨path, sha c, c.length, 644⟩]
  | .mkFolder path _ =>
      files.filter (fun f => decide (f.path ≠ gitkeepPathOf path))
        ++ [⟨gitkeepPathOf path, sha [], 0, 644⟩]
  | .rmFile path => files.filter (fun f => decide (f.path ≠ path))
  | .rmFolder path =>
      let pre := if strEndsWith path "/" then path else path ++ "/"
      files.filter (fun f => !(strStartsWith f.path pre))

/-- A successful application of one mutation: the handler answered with a
created snapshot id and the given successor state. -/
def MutStep (sha : Bytes → String) (p b u : String) (db : DB) (m : Mut) (db' : DB)
    (sid : Nat) : Prop :=
  (applyMut sha p b u db m).snapshotId = some sid ∧ (applyMut sha p b u db m).db = db'

/-- A sequence of successful mutations applied one at a time (no
concurrency), recording each created snapshot id. -/
inductive MutTrace (sha : Bytes → String) (p b u : String) : DB → List (Mut × Nat) → DB → Prop where
  | nil (db : DB) : MutTrace sha p b u db [] db
  | cons {db db1 db2 : DB} {m : Mut} {sid : Nat} {tr : List (Mut × Nat)} :
      MutStep sha p b u db m db1 sid → MutTrace sha p b u db1 tr db2 →
      MutTrace sha p b u db ((m, sid) :: tr) db2

/-! ## Helper lemmas -/

lemma keyed_filter_map (n : Nat) (fs : List FileRec) :
    ((fs.map (fun f => (n, f))).filter (fun e => decide (e.1 = n))).map Prod.snd = fs := by
  induction fs with
  | nil => rfl
  | cons f fs ih => simp [ih]

lemma getFiles_createNew_self (db : DB) (p u : String) (fs : List FileRec) (t : String)
    (h : ∀ e ∈ db.snapFiles, e.1 < db.nextId) :
    getFilesInSnapshot (createNewSnapshot db p u fs t).2 db.nextId = fs := by
  have h1 : db.snapFiles.filter (fun e => decide (e.1 = db.nextId)) = [] := by
    rw [List.filter_eq_nil_iff]
    intro e he
    simpa using Nat.ne_of_lt (h e he)
  simp [createNewSnapshot, getFilesInSnapshot, List.filter_append, h1, keyed_filter_map]

lemma getFiles_createNew_other (db : DB) (p u : String) (fs : List FileRec) (t : String)
    (sid : Nat) (h : sid ≠ db.nextId) :
    getFilesInSnapshot (createNewSnapshot db p u fs t).2 sid = getFilesInSnapshot db sid := by
  have h1 : (fs.map (fun f => (db.nextId, f))).filter (fun e => decide (e.1 = sid)) = [] := by
    rw [List.filter_eq_nil_iff]
    intro e he
    rcases List.mem_map.mp he with ⟨f, _, rfl⟩
    simpa using fun hc => h hc.symm
  simp [createNewSnapshot, getFilesInSnapshot, List.filter_append, h1]

lemma getFiles_updateBranchHead (db : DB) (p b : String) (s sid : Nat) :
    getFilesInSnapshot (updateBranchHead db p b s) sid = getFilesInSnapshot db sid := rfl

lemma find?_update_branches (l : List BranchRow) (p b : String) (sid now : Nat) :
    (l.map (fun r => if r.projectId = p ∧ r.name = b then
        { r with head := some sid, updatedAt := now } else r)).find?
        (fun r => decide (r.projectId = p ∧ r.name = b))
      = (l.find? (fun r => decide (r.projectId = p ∧ r.name = b))).map
          (fun r => { r with head := some sid, updatedAt := now }) := by
  induction l with
  | nil => rfl
  | cons r rest ih =>
    by_cases h : r.projectId = p ∧ r.name = b
    · rw [List.map_cons, if_pos h, List.find?_cons_of_pos _ (by simpa using h),
        List.find?_cons_of_pos _ (by simpa using h)]
      rfl
    · rw [List.map_cons, if_neg h, List.find?_cons_of_neg _ (by simpa using h),
        List.find?_cons_of_neg _ (by simpa using h), ih]

lemma findBranch_updateBranchHead (db : DB) (p b : String) (sid : Nat) :
    findBranch (updateBranchHead db p b sid) p b
      = (findBranch db p b).map (fun r => { r with head := some sid, updatedAt := db.now }) :=
  find?_update_branches db.branches p b sid db.now

lemma DBWF_createNew (db : DB) (p u : String) (fs : List FileRec) (t : String)
    (h : DBWF db) : DBWF (createNewSnapshot db p u fs t).2 := by
  obtain ⟨h1, h2⟩ := h
  constructor
  · intro s hs
    simp only [createNewSnapshot, List.mem_append, List.mem_singleton] at hs
    rcases hs with hs | rfl
    · exact Nat.lt_succ_of_lt (h1 s hs)
    · exact Nat.lt_succ_self _
  · intro e he
    simp only [createNewSnapshot, List.mem_append] at he
    rcases he with he | he
    · exact Nat.lt_succ_of_lt (h2 e he)
    · rcases List.mem_map.mp he with ⟨f, _, rfl⟩
      exact Nat.lt_succ_self _

lemma DBWF_updateBranchHead (db : DB) (p b : String) (sid : Nat) (h : DBWF db) :
    DBWF (updateBranchHead db p b sid) := h

lemma resolve_of_head (db : DB) (p b : String) (r : BranchRow) (h0 : Nat)
    (hb : b ≠ "") (hbr : findBranch db p b = some r) (hh : r.head = some h0) :
    resolveSnapshotId db p (some b) = some h0 := by
  simp [resolveSnapshotId, if_neg hb, hbr, hh]

lemma currentFiles_of_head (db : DB) (p b : String) (r : BranchRow) (h0 : Nat)
    (hb : b ≠ "") (hbr : findBranch db p b = some r) (hh : r.head = some h0) :
    currentFiles db p b = getFilesInSnapshot db h0 := by
  simp [currentFiles, resolve_of_head db p b r h0 hb hbr hh]

lemma createNewSnapshot_fst (db : DB) (p u : String) (fs : List FileRec) (t : String) :
    (createNewSnapshot db p u fs t).1 = db.nextId := rfl

lemma findBranch_createNew (db : DB) (p u : String) (fs : List FileRec) (t q c : String) :
    findBranch (createNewSnapshot db p u fs t).2 q c = findBranch db q c := rfl

lemma commit_findBranch (db : DB) (p u : String) (fs : List FileRec) (t b : String)
    (r : BranchRow) (hbr : findBranch db p b = some r) :
    findBranch (updateBranchHead (createNewSnapshot db p u fs t).2 p b
        (createNewSnapshot db p u fs t).1) p b
      = some { r with head := some db.nextId, updatedAt := db.now } := by
  rw [findBranch_updateBranchHead]
  have h2 : findBranch (createNewSnapshot db p u fs t).2 p b = some r := hbr
  rw [h2]
  rfl

lemma commit_getFiles_self (db : DB) (p u : String) (fs : List FileRec) (t b : String)
    (h : ∀ e ∈ db.snapFiles, e.1 < db.nextId) :
    getFilesInSnapshot (updateBranchHead (createNewSnapshot db p u fs t).2 p b
        (createNewSnapshot db p u fs t).1) db.nextId = fs := by
  rw [getFiles_updateBranchHead]
  exact getFiles_createNew_self db p u fs t h

lemma commit_getFiles_other (db : DB) (p u : String) (fs : List FileRec) (t b : String)
    (sid : Nat) (h : sid ≠ db.nextId) :
    getFilesInSnapshot (updateBranchHead (createNewSnapshot db p u fs t).2 p b
        (createNewSnapshot db p u fs t).1) sid = getFilesInSnapshot db sid := by
  rw [getFiles_updateBranchHead]
  exact getFiles_createNew_other db p u fs t sid h

/-- The state after `createFile`'s content upload succeeded. -/
def dbUpF (sha : Bytes → String) (db : DB) (p : String) (c : Bytes) : DB :=
  { db with blobStore := upsertBlob db.blobStore (p ++ "/" ++ sha c) c }

/-- The state after `createFolder`'s placeholder upload succeeded. -/
def dbUp (sha : Bytes → String) (db : DB) (p : String) : DB :=
  { db with blobStore := upsertBlob db.blobStore (p ++ "/" ++ sha []) [] }

lemma createFile_success_eval (sha : Bytes → String) (db : DB) (p b path : String)
    (c : Bytes) (u : String) (hval : ¬(b = "" ∨ path = "" ∨ u = "")) :
    createFile sha db p b path c u true
      = ⟨201, some db.nextId,
          updateBranchHead (createNewSnapshot (dbUpF sha db p c) p u
            ((currentFiles db p b).filter (fun f => decide (f.path ≠ path))
              ++ [⟨path, sha c, c.length, 644⟩]) ("Create file: " ++ path)).2 p b
            db.nextId⟩ := by
  simp only [createFile, if_neg hval]
  rfl

lemma createFolder_eval (sha : Bytes → String) (db : DB) (p b path u : String)
    (uploadOk : Bool) (hval : ¬(b = "" ∨ path = "" ∨ u = "")) :
    createFolder sha db p b path u uploadOk
      = ⟨201, some db.nextId,
          updateBranchHead (createNewSnapshot (if uploadOk then dbUp sha db p else db) p u
            ((currentFiles db p b).filter (fun f => decide (f.path ≠ gitkeepPathOf path))
              ++ [⟨gitkeepPathOf path, sha [], 0, 644⟩]) ("Create folder: " ++ path)).2 p b
            db.nextId⟩ := by
  cases uploadOk <;> (simp only [createFolder, if_neg hval]; rfl)

lemma deleteFile_success_eval (db : DB) (p b path u : String) (cur : Nat)
    (hval : ¬(b = "" ∨ path = "" ∨ u = ""))
    (hres : resolveSnapshotId db p (some b) = some cur)
    (hlen : ¬((getFilesInSnapshot db cur).length
        = ((getFilesInSnapshot db cur).filter (fun f => decide (f.path ≠ path))).length)) :
    deleteFile db p b path u
      = ⟨200, some db.nextId,
          updateBranchHead (createNewSnapshot db p u
            ((getFilesInSnapshot db cur).filter (fun f => decide (f.path ≠ path)))
            ("Delete file: " ++ path)).2 p b db.nextId⟩ := by
  simp only [deleteFile, if_neg hval, hres]
  rw [if_neg hlen]
  rfl

lemma deleteFolder_success_eval (db : DB) (p b path u : String) (cur : Nat)
    (hval : ¬(b = "" ∨ path = "" ∨ u = ""))
    (hres : resolveSnapshotId db p (some b) = some cur)
    (hlen : ¬((getFilesInSnapshot db cur).length
        = ((getFilesInSnapshot db cur).filter (fun f => !(strStartsWith f.path
            (if strEndsWith path "/" then path else path ++ "/")))).length)) :
    deleteFolder db p b path u
      = ⟨200, some db.nextId,
          updateBranchHead (createNewSnapshot db p u
            ((getFilesInSnapshot db cur).filter (fun f => !(strStartsWith f.path
              (if strEndsWith path "/" then path else path ++ "/"))))
            ("Delete folder: " ++ path)).2 p b db.nextId⟩ := by
  simp only [deleteFolder, if_neg hval, hres]
  rw [if_neg hlen]
  rfl

lemma nodup_filter_paths (files : List FileRec) (q : FileRec → Bool)
    (h : (files.map FileRec.path).Nodup) : ((files.filter q).map FileRec.path).Nodup :=
  h.sublist (List.Sublist.map FileRec.path (List.filter_sublist files))

lemma nodup_overwrite (files : List FileRec) (r : FileRec)
    (h : (files.map FileRec.path).Nodup) :
    (((files.filter (fun f => decide (f.path ≠ r.path))) ++ [r]).map FileRec.path).Nodup := by
  have h1 := nodup_filter_paths files (fun f => decide (f.path ≠ r.path)) h
  have h2 : r.path ∉ (files.filter (fun f => decide (f.path ≠ r.path))).map FileRec.path := by
    intro hx
    rcases List.mem_map.mp hx with ⟨f, hf, hfx⟩
    rcases List.mem_filter.mp hf with ⟨_, hpf⟩
    simp at hpf
    exact hpf hfx
  simp only [List.map_append, List.map_cons, List.map_nil]
  refine List.Nodup.append h1 (List.nodup_singleton _) ?_
  intro a ha hb
  rw [List.mem_singleton] at hb
  subst hb
  exact h2 ha

lemma currentFiles_paths_nodup (db : DB) (p b : String) (hnd : snapshotPathsNodup db) :
    ((currentFiles db p b).map FileRec.path).Nodup := by
  unfold currentFiles
  cases resolveSnapshotId db p (some b) with
  | none => simp
  | some sid => exact hnd sid

lemma commit_preserves (db : DB) (p u : String) (fs : List FileRec) (t b : String)
    (hwf : DBWF db) (hnd : snapshotPathsNodup db) (hfs : (fs.map FileRec.path).Nodup) :
    DBWF (updateBranchHead (createNewSnapshot db p u fs t).2 p b
        (createNewSnapshot db p u fs t).1) ∧
    snapshotPathsNodup (updateBranchHead (createNewSnapshot db p u fs t).2 p b
        (createNewSnapshot db p u fs t).1) := by
  refine ⟨DBWF_updateBranchHead _ p b _ (DBWF_createNew db p u fs t hwf), ?_⟩
  intro sid
  by_cases hs : sid = db.nextId
  · subst hs
    rw [commit_getFiles_self db p u fs t b hwf.2]
    exact hfs
  · rw [commit_getFiles_other db p u fs t b sid hs]
    exact hnd sid

lemma applyMut_preserves (sha : Bytes → String) (p b u : String) (db : DB) (m : Mut)
    (hwf : DBWF db) (hnd : snapshotPathsNodup db) :
    DBWF (applyMut sha p b u db m).db ∧ snapshotPathsNodup (applyMut sha p b u db m).db := by
  cases m with
  | mkFile path c ok =>
    by_cases hval : b = "" ∨ path = "" ∨ u = ""
    · simp only [applyMut, createFile, if_pos hval]
      exact ⟨hwf, hnd⟩
    · cases ok with
      | false =>
        simp only [applyMut, createFile, if_neg hval]
        exact ⟨hwf, hnd⟩
      | true =>
        rw [applyMut, createFile_success_eval sha db p b path c u hval]
        exact commit_preserves (dbUpF sha db p c) p u _ _ b hwf hnd
          (nodup_overwrite (currentFiles db p b) ⟨path, sha c, c.length, 644⟩
            (currentFiles_paths_nodup db p b hnd))
  | mkFolder path ok =>
    by_cases hval : b = "" ∨ path = "" ∨ u = ""
    · simp only [applyMut, createFolder, if_pos hval]
      exact ⟨hwf, hnd⟩
    · rw [applyMut, createFolder_eval sha db p b path u ok hval]
      cases ok with
      | false =>
        exact commit_preserves db p u _ _ b hwf hnd
          (nodup_overwrite (currentFiles db p b) ⟨gitkeepPathOf path, sha [], 0, 644⟩
            (currentFiles_paths_nodup db p b hnd))
      | true =>
        exact commit_preserves (dbUp sha db p) p u _ _ b hwf hnd
          (nodup_overwrite (currentFiles db p b) ⟨gitkeepPathOf path, sha [], 0, 644⟩
            (currentFiles_paths_nodup db p b hnd))
  | rmFile path =>
    by_cases hval : b = "" ∨ path = "" ∨ u = ""
    · simp only [applyMut, deleteFile, if_pos hval]
      exact ⟨hwf, hnd⟩
    · cases hres : resolveSnapshotId db p (some b) with
      | none =>
        simp only [applyMut, deleteFile, if_neg hval, hres]
        exact ⟨hwf, hnd⟩
      | some cur =>
        by_cases hlen : (getFilesInSnapshot db cur).length
            = ((getFilesInSnapshot db cur).filter (fun f => decide (f.path ≠ path))).length
        · simp only [applyMut, deleteFile, if_neg hval, hres]
          rw [if_pos hlen]
          exact ⟨hwf, hnd⟩
        · rw [applyMut, deleteFile_success_eval db p b path u cur hval hres hlen]
          exact commit_preserves db p u _ _ b hwf hnd
            (nodup_filter_paths _ _ (hnd cur))
  | rmFolder path =>
    by_cases hval : b = "" ∨ path = "" ∨ u = ""
    · simp only [applyMut, deleteFolder, if_pos hval]
      exact ⟨hwf, hnd⟩
    · cases hres : resolveSnapshotId db p (some b) with
      | none =>
        simp only [applyMut, deleteFolder, if_neg hval, hres]
        exact ⟨hwf, hnd⟩
      | some cur =>
        by_cases hlen : (getFilesInSnapshot db cur).length
            = ((getFilesInSnapshot db cur).filter (fun f => !(strStartsWith f.path
                (if strEndsWith path "/" then path else path ++ "/")))).length
        · simp only [applyMut, deleteFolder, if_neg hval, hres]
          rw [if_pos hlen]
          exact ⟨hwf, hnd⟩
        · rw [applyMut, deleteFolder_success_eval db p b path u cur hval hres hlen]
          exact commit_preserves db p u _ _ b hwf hnd
            (nodup_filter_paths _ _ (hnd cur))

/-! ## Concrete fixtures for witnesses -/

/-- A concrete stand-in digest used purely as a test input (SHA-256 itself
is an external collaborator of the repository). -/
def shaDemo : Bytes → String := fun bs => "#" ++ toString bs.length

/-- A small concrete state: one project `p1` with one snapshot `0` holding
one file, and branch `main` pointing at it. -/
def dbW : DB :=
  ⟨[⟨0, "p1", "u1", "t", 1, 1⟩], [(0, ⟨"x.txt", "h1", 1, 644⟩)],
   [⟨"p1", "main", some 0, 0⟩], [("p1/h1", [1])], 1, 9⟩

/-- The empty state of a fresh project `p1` whose branch `main` has a null
head. -/
def dbW6 : DB := ⟨[], [], [⟨"p1", "main", none, 0⟩], [], 0, 5⟩

/-- A concrete state whose snapshot `0` holds a nested subtree under `a/b`
and a sibling under `a/bc`. -/
def dbW4 : DB :=
  ⟨[⟨0, "p1", "u1", "t", 1, 3⟩],
   [(0, ⟨"a/b/c/d.txt", "h1", 1, 644⟩), (0, ⟨"a/bc/e.txt", "h2", 1, 644⟩),
    (0, ⟨"a/b/.gitkeep", "h0", 0, 644⟩)],
   [⟨"p1", "main", some 0, 0⟩], [], 1, 9⟩

/-! ## The claims -/

/-- C2: `resolveSnapshotId` returns the branch's head snapshot id exactly
when a (non-empty, hence truthy) branch name is supplied, a row for the
pair exists and its head pointer is non-null; in every other case — no
branch given, empty name, branch not found, or null head — it falls back
to the project's most recent snapshot by timestamp, which is `none`
exactly when the project has no snapshots at all. -/
theorem resolveSnapshotId_spec (db : DB) (p : String) (branch : Option String) :
    (∀ b r h, branch = some b → b ≠ "" → findBranch db p b = some r →
        r.head = some h → resolveSnapshotId db p branch = some h) ∧
    ((branch = none ∨ branch = some "" ∨
        (∃ b, branch = some b ∧ findBranch db p b = none) ∨
        (∃ b r, branch = some b ∧ findBranch db p b = some r ∧ r.head = none)) →
      resolveSnapshotId db p branch = latest_project_snapshot db p) ∧
    (latest_project_snapshot db p = none ↔ projectSnaps db p = []) := by
  refine ⟨?_, ?_, ?_⟩
  · rintro b r h rfl hb hf hh
    exact resolve_of_head db p b r h hb hf hh
  · rintro (rfl | rfl | ⟨b, rfl, hf⟩ | ⟨b, r, rfl, hf, hh⟩)
    · rfl
    · simp [resolveSnapshotId]
    · by_cases hb : b = ""
      · subst hb; simp [resolveSnapshotId]
      · simp [resolveSnapshotId, if_neg hb, hf]
    · by_cases hb : b = ""
      · subst hb; simp [resolveSnapshotId]
      · simp [resolveSnapshotId, if_neg hb, hf, hh]
  · unfold latest_project_snapshot
    cases h : projectSnaps db p <;> simp

/-- Witness for C2 at a concrete state: a branch with a non-null head
resolves to it, and an unknown branch name falls back to the latest
snapshot. -/
theorem resolveSnapshotId_spec_w :
    resolveSnapshotId dbW "p1" (some "main") = some 0 ∧
    resolveSnapshotId dbW "p1" (some "dev") = latest_project_snapshot dbW "p1" := by
  have h := resolveSnapshotId_spec dbW "p1" (some "main")
  have h2 := resolveSnapshotId_spec dbW "p1" (some "dev")
  exact ⟨h.1 "main" ⟨"p1", "main", some 0, 0⟩ 0 rfl (by decide) (by decide) rfl,
    h2.2.1 (Or.inr (Or.inr (Or.inl ⟨"dev", rfl, by decide⟩)))⟩

/-- C5: `deleteFile` on a path absent from the resolved current snapshot
answers 404 and returns the state unchanged — no snapshot row is created
and the branch head is untouched. -/
theorem deleteFile_missing_404 (db : DB) (p b path u : String) (sid : Nat)
    (hb : b ≠ "") (hpath : path ≠ "") (hu : u ≠ "")
    (hres : resolveSnapshotId db p (some b) = some sid)
    (hmiss : ∀ f ∈ getFilesInSnapshot db sid, f.path ≠ path) :
    deleteFile db p b path u = ⟨404, none, db⟩ := by
  have hval : ¬(b = "" ∨ path = "" ∨ u = "") := by simp [hb, hpath, hu]
  have hfilter : (getFilesInSnapshot db sid).filter (fun f => !decide (f.path = path))
      = getFilesInSnapshot db sid :=
    List.filter_eq_self.mpr (fun f hf => by simpa using hmiss f hf)
  simp [deleteFile, if_neg hval, hres, hfilter]

/-- Witness for C5: deleting a path the snapshot does not contain answers
404 and leaves the concrete state untouched. -/
theorem deleteFile_missing_404_w :
    deleteFile dbW "p1" "main" "nope.txt" "u1" = ⟨404, none, dbW⟩ :=
  deleteFile_missing_404 dbW "p1" "main" "nope.txt" "u1" 0
    (by decide) (by decide) (by decide) (by decide) (by decide)

/-- C7: when the blob upload of the primary file content fails,
`createFile` aborts with 500 before any relational write: the returned
state is the input state, so no snapshot row, no `snapshot_files` rows and
no branch-head change are visible. -/
theorem createFile_upload_failure_aborts (sha : Bytes → String) (db : DB)
    (p b path : String) (content : Bytes) (u : String)
    (hb : b ≠ "") (hpath : path ≠ "") (hu : u ≠ "") :
    createFile sha db p b path content u false = ⟨500, none, db⟩ := by
  have hval : ¬(b = "" ∨ path = "" ∨ u = "") := by simp [hb, hpath, hu]
  simp [createFile, if_neg hval]

/-- Witness for C7 at a concrete state and digest. -/
theorem createFile_upload_failure_aborts_w :
    createFile shaDemo dbW "p1" "main" "y.txt" [2] "u1" false = ⟨500, none, dbW⟩ :=
  createFile_upload_failure_aborts shaDemo dbW "p1" "main" "y.txt" [2] "u1"
    (by decide) (by decide) (by decide)

/-- C10: the delete mutations perform no blob-store operation at all: on
every path through `deleteFile` and `deleteFolder` (validation failure,
missing snapshot, nothing matched, or success) the blob store of the
returned state is exactly the input one, so every stored blob is looked up
exactly as before. -/
theorem delete_ops_no_blob_writes (db : DB) (p b fpath dpath u : String) :
    (deleteFile db p b fpath u).db.blobStore = db.blobStore ∧
    (deleteFolder db p b dpath u).db.blobStore = db.blobStore ∧
    (∀ k, lookupBlob (deleteFile db p b fpath u).db.blobStore k
        = lookupBlob db.blobStore k) ∧
    (∀ k, lookupBlob (deleteFolder db p b dpath u).db.blobStore k
        = lookupBlob db.blobStore k) := by
  have h1 : (deleteFile db p b fpath u).db.blobStore = db.blobStore := by
    unfold deleteFile
    split
    · rfl
    · split
      · rfl
      · dsimp only
        split <;> rfl
  have h2 : (deleteFolder db p b dpath u).db.blobStore = db.blobStore := by
    unfold deleteFolder
    split
    · rfl
    · split
      · rfl
      · dsimp only
        split <;> split <;> rfl
  exact ⟨h1, h2, fun k => by rw [h1], fun k => by rw [h2]⟩

/-- C4: `deleteFolder` removes exactly the rows whose path starts with the
folder path followed by a trailing slash — every descendant at any depth —
keeps every other row unchanged, and answers 404 (with the state
unchanged) when no row matched the prefix. -/
theorem deleteFolder_prefix_spec (db : DB) (p b path u : String) (sid : Nat)
    (hwf : DBWF db) (hb : b ≠ "") (hpath : path ≠ "") (hu : u ≠ "")
    (hns : strEndsWith path "/" = false)
    (hres : resolveSnapshotId db p (some b) = some sid) :
    ((∀ f ∈ getFilesInSnapshot db sid, strStartsWith f.path (path ++ "/") = false) →
        deleteFolder db p b path u = ⟨404, none, db⟩) ∧
    ((∃ f ∈ getFilesInSnapshot db sid, strStartsWith f.path (path ++ "/") = true) →
        (deleteFolder db p b path u).status = 200 ∧
        (deleteFolder db p b path u).snapshotId = some db.nextId ∧
        getFilesInSnapshot (deleteFolder db p b path u).db db.nextId
          = (getFilesInSnapshot db sid).filter
              (fun f => !strStartsWith f.path (path ++ "/"))) := by
  have hval : ¬(b = "" ∨ path = "" ∨ u = "") := by simp [hb, hpath, hu]
  constructor
  · intro hall
    have hfilter : (getFilesInSnapshot db sid).filter
        (fun f => !strStartsWith f.path (path ++ "/")) = getFilesInSnapshot db sid :=
      List.filter_eq_self.mpr (fun f hf => by simp [hall f hf])
    simp [deleteFolder, if_neg hval, hres, hns, hfilter]
  · rintro ⟨f, hf, hsw⟩
    have hlt : ((getFilesInSnapshot db sid).filter
        (fun f => !strStartsWith f.path (path ++ "/"))).length
          < (getFilesInSnapshot db sid).length :=
      List.length_filter_lt_length_iff_exists.mpr ⟨f, hf, by simp [hsw]⟩
    have hlen : ¬((getFilesInSnapshot db sid).length
        = ((getFilesInSnapshot db sid).filter
            (fun f => !strStartsWith f.path (path ++ "/"))).length) := by omega
    have heval : deleteFolder db p b path u
        = ⟨200,
            some (createNewSnapshot db p u
              ((getFilesInSnapshot db sid).filter
                (fun f => !strStartsWith f.path (path ++ "/")))
              ("Delete folder: " ++ path)).1,
            updateBranchHead (createNewSnapshot db p u
              ((getFilesInSnapshot db sid).filter
                (fun f => !strStartsWith f.path (path ++ "/")))
              ("Delete folder: " ++ path)).2 p b
              (createNewSnapshot db p u
                ((getFilesInSnapshot db sid).filter
                  (fun f => !strStartsWith f.path (path ++ "/")))
                ("Delete folder: " ++ path)).1⟩ := by
      simp [deleteFolder, if_neg hval, hres, hns, hlen]
    refine ⟨by rw [heval], by rw [heval, createNewSnapshot_fst], ?_⟩
    rw [heval]
    exact commit_getFiles_self db p u _ _ b hwf.2

/-- Witness for C4 at a concrete state: deleting folder `a/b` removes
`a/b/c/d.txt` and `a/b/.gitkeep` at every depth while keeping the sibling
`a/bc/e.txt`, and deleting an absent folder answers 404. -/
theorem deleteFolder_prefix_spec_w :
    ((∀ f ∈ getFilesInSnapshot dbW4 0, strStartsWith f.path ("a/b" ++ "/") = false) →
        deleteFolder dbW4 "p1" "main" "a/b" "u1" = ⟨404, none, dbW4⟩) ∧
    ((∃ f ∈ getFilesInSnapshot dbW4 0, strStartsWith f.path ("a/b" ++ "/") = true) →
        (deleteFolder dbW4 "p1" "main" "a/b" "u1").status = 200 ∧
        (deleteFolder dbW4 "p1" "main" "a/b" "u1").snapshotId = some 1 ∧
        getFilesInSnapshot (deleteFolder dbW4 "p1" "main" "a/b" "u1").db 1
          = (getFilesInSnapshot dbW4 0).filter
              (fun f => !strStartsWith f.path ("a/b" ++ "/"))) :=
  deleteFolder_prefix_spec dbW4 "p1" "main" "a/b" "u1" 0
    ⟨by decide, by decide⟩ (by decide) (by decide) (by decide) (by decide) (by decide)

/-- C8: `createFolder` appends a placeholder row at `path/.gitkeep` of size
0 whose hash is the digest of the empty byte string, and succeeds with 201,
a new snapshot and an advanced branch head whether or not the placeholder's
blob upload succeeded — the upload failure is never escalated. -/
theorem createFolder_soft_fail (sha : Bytes → String) (db : DB) (p b path u : String)
    (uploadOk : Bool) (r : BranchRow)
    (hwf : DBWF db) (hb : b ≠ "") (hpath : path ≠ "") (hu : u ≠ "")
    (hbr : findBranch db p b = some r) :
    (createFolder sha db p b path u uploadOk).status = 201 ∧
    (createFolder sha db p b path u uploadOk).snapshotId = some db.nextId ∧
    findBranch (createFolder sha db p b path u uploadOk).db p b
      = some { r with head := some db.nextId, updatedAt := db.now } ∧
    getFilesInSnapshot (createFolder sha db p b path u uploadOk).db db.nextId
      = (currentFiles db p b).filter (fun f => decide (f.path ≠ gitkeepPathOf path))
          ++ [⟨gitkeepPathOf path, sha [], 0, 644⟩] := by
  have hval : ¬(b = "" ∨ path = "" ∨ u = "") := by simp [hb, hpath, hu]
  cases uploadOk with
  | false =>
    have heval : createFolder sha db p b path u false
        = ⟨201,
            some (createNewSnapshot db p u
              ((currentFiles db p b).filter (fun f => decide (f.path ≠ gitkeepPathOf path))
                ++ [⟨gitkeepPathOf path, sha [], 0, 644⟩])
              ("Create folder: " ++ path)).1,
            updateBranchHead (createNewSnapshot db p u
              ((currentFiles db p b).filter (fun f => decide (f.path ≠ gitkeepPathOf path))
                ++ [⟨gitkeepPathOf path, sha [], 0, 644⟩])
              ("Create folder: " ++ path)).2 p b
              (createNewSnapshot db p u
                ((currentFiles db p b).filter (fun f => decide (f.path ≠ gitkeepPathOf path))
                  ++ [⟨gitkeepPathOf path, sha [], 0, 644⟩])
                ("Create folder: " ++ path)).1⟩ := by
      simp [createFolder, if_neg hval]
    refine ⟨by rw [heval], by rw [heval]; rfl, ?_, ?_⟩
    · rw [heval]
      exact commit_findBranch db p u _ _ b r hbr
    · rw [heval]
      exact commit_getFiles_self db p u _ _ b hwf.2
  | true =>
    have heval : createFolder sha db p b path u true
        = ⟨201,
            some (createNewSnapshot (dbUp sha db p) p u
              ((currentFiles db p b).filter (fun f => decide (f.path ≠ gitkeepPathOf path))
                ++ [⟨gitkeepPathOf path, sha [], 0, 644⟩])
              ("Create folder: " ++ path)).1,
            updateBranchHead (createNewSnapshot (dbUp sha db p) p u
              ((currentFiles db p b).filter (fun f => decide (f.path ≠ gitkeepPathOf path))
                ++ [⟨gitkeepPathOf path, sha [], 0, 644⟩])
              ("Create folder: " ++ path)).2 p b
              (createNewSnapshot (dbUp sha db p) p u
                ((currentFiles db p b).filter (fun f => decide (f.path ≠ gitkeepPathOf path))
                  ++ [⟨gitkeepPathOf path, sha [], 0, 644⟩])
                ("Create folder: " ++ path)).1⟩ := by
      simp [createFolder, if_neg hval, dbUp]
    refine ⟨by rw [heval], by rw [heval]; rfl, ?_, ?_⟩
    · rw [heval]
      exact commit_findBranch (dbUp sha db p) p u _ _ b r hbr
    · rw [heval]
      exact commit_getFiles_self (dbUp sha db p) p u _ _ b hwf.2

/-- Witness for C8 at a concrete state with a failing placeholder upload. -/
theorem createFolder_soft_fail_w :
    (createFolder shaDemo dbW "p1" "main" "docs" "u1" false).status = 201 ∧
    (createFolder shaDemo dbW "p1" "main" "docs" "u1" false).snapshotId = some 1 ∧
    findBranch (createFolder shaDemo dbW "p1" "main" "docs" "u1" false).db "p1" "main"
      = some { projectId := "p1", name := "main", head := some 1, updatedAt := 9 } ∧
    getFilesInSnapshot (createFolder shaDemo dbW "p1" "main" "docs" "u1" false).db 1
      = (currentFiles dbW "p1" "main").filter
          (fun f => decide (f.path ≠ gitkeepPathOf "docs"))
          ++ [⟨gitkeepPathOf "docs", shaDemo [], 0, 644⟩] :=
  createFolder_soft_fail shaDemo dbW "p1" "main" "docs" "u1" false
    ⟨"p1", "main", some 0, 0⟩ ⟨by decide, by decide⟩ (by decide) (by decide) (by decide)
    (by decide)

/-- C6: starting from a state whose snapshots all have pairwise-distinct
file paths (the empty initial state included), any sequence of `createFile`
and `createFolder` mutations on one branch leaves every snapshot — in
particular every snapshot the mutator produced — free of duplicate paths,
because the mutator filters out any existing row with the incoming path
before appending the replacement row. -/
theorem create_seq_paths_nodup (sha : Bytes → String) (p b u : String) (db : DB)
    (ms : List Mut) (hwf : DBWF db) (hnd : snapshotPathsNodup db)
    (hcr : ∀ m ∈ ms, m.isCreate = true) :
    snapshotPathsNodup (applySeq sha p b u db ms) := by
  clear hcr
  revert hwf hnd
  induction ms generalizing db with
  | nil => exact fun _ hnd => hnd
  | cons m rest ih =>
    intro hwf hnd
    have h := applyMut_preserves sha p b u db m hwf hnd
    rw [applySeq, List.foldl_cons]
    exact ih ((applyMut sha p b u db m).db) h.1 h.2

/-- Witness for C6: a concrete create/create/overwrite sequence from the
empty project state. -/
theorem create_seq_paths_nodup_w :
    snapshotPathsNodup (applySeq shaDemo "p1" "main" "u1" dbW6
      [Mut.mkFile "a.txt" [1] true, Mut.mkFolder "docs" false,
       Mut.mkFile "a.txt" [2, 3] true]) :=
  create_seq_paths_nodup shaDemo "p1" "main" "u1" dbW6
    [Mut.mkFile "a.txt" [1] true, Mut.mkFolder "docs" false,
     Mut.mkFile "a.txt" [2, 3] true]
    ⟨by decide, by decide⟩
    (by
      intro sid
      simp [getFilesInSnapshot, dbW6])
    (by decide)

lemma mutStep_effect (sha : Bytes → String) (p b u : String) (db db' : DB) (m : Mut)
    (sid h0 : Nat) (r : BranchRow)
    (hwf : DBWF db) (hbr : findBranch db p b = some r) (hh : r.head = some h0)
    (hs : MutStep sha p b u db m db' sid) :
    sid = db.nextId ∧ DBWF db' ∧
    findBranch db' p b = some { r with head := some db.nextId, updatedAt := db.now } ∧
    getFilesInSnapshot db' db.nextId = mutDelta sha m (getFilesInSnapshot db h0) ∧
    (∀ t2, t2 ≠ db.nextId → getFilesInSnapshot db' t2 = getFilesInSnapshot db t2) := by
  obtain ⟨hsid, hdb⟩ := hs
  cases m with
  | mkFile path c ok =>
    by_cases hval : b = "" ∨ path = "" ∨ u = ""
    · rw [applyMut, createFile, if_pos hval] at hsid
      exact absurd hsid (by simp)
    · have hb : b ≠ "" := fun h => hval (Or.inl h)
      have hcur : currentFiles db p b = getFilesInSnapshot db h0 :=
        currentFiles_of_head db p b r h0 hb hbr hh
      cases ok with
      | false =>
        rw [applyMut, createFile, if_neg hval] at hsid
        exact absurd hsid (by simp)
      | true =>
        rw [applyMut, createFile_success_eval sha db p b path c u hval] at hsid hdb
        simp only [OpOut.snapshotId, Option.some_inj] at hsid
        subst hsid
        subst hdb
        refine ⟨rfl, ?_, ?_, ?_, ?_⟩
        · exact DBWF_updateBranchHead _ p b _ (DBWF_createNew (dbUpF sha db p c) p u _ _ hwf)
        · exact commit_findBranch (dbUpF sha db p c) p u _ _ b r hbr
        · rw [mutDelta, ← hcur]
          exact commit_getFiles_self (dbUpF sha db p c) p u _ _ b hwf.2
        · intro t2 ht2
          exact commit_getFiles_other (dbUpF sha db p c) p u _ _ b t2 ht2
  | mkFolder path ok =>
    by_cases hval : b = "" ∨ path = "" ∨ u = ""
    · rw [applyMut, createFolder, if_pos hval] at hsid
      exact absurd hsid (by simp)
    · have hb : b ≠ "" := fun h => hval (Or.inl h)
      have hcur : currentFiles db p b = getFilesInSnapshot db h0 :=
        currentFiles_of_head db p b r h0 hb hbr hh
      rw [applyMut, createFolder_eval sha db p b path u ok hval] at hsid hdb
      simp only [OpOut.snapshotId, Option.some_inj] at hsid
      subst hsid
      subst hdb
      cases ok with
      | false =>
        refine ⟨rfl, ?_, ?_, ?_, ?_⟩
        · exact DBWF_updateBranchHead _ p b _ (DBWF_createNew db p u _ _ hwf)
        · exact commit_findBranch db p u _ _ b r hbr
        · rw [mutDelta, ← hcur]
          exact commit_getFiles_self db p u _ _ b hwf.2
        · intro t2 ht2
          exact commit_getFiles_other db p u _ _ b t2 ht2
      | true =>
        refine ⟨rfl, ?_, ?_, ?_, ?_⟩
        · exact DBWF_updateBranchHead _ p b _ (DBWF_createNew (dbUp sha db p) p u _ _ hwf)
        · exact commit_findBranch (dbUp sha db p) p u _ _ b r hbr
        · rw [mutDelta, ← hcur]
          exact commit_getFiles_self (dbUp sha db p) p u _ _ b hwf.2
        · intro t2 ht2
          exact commit_getFiles_other (dbUp sha db p) p u _ _ b t2 ht2
  | rmFile path =>
    by_cases hval : b = "" ∨ path = "" ∨ u = ""
    · rw [applyMut, deleteFile, if_pos hval] at hsid
      exact absurd hsid (by simp)
    · have hb : b ≠ "" := fun h => hval (Or.inl h)
      have hres : resolveSnapshotId db p (some b) = some h0 :=
        resolve_of_head db p b r h0 hb hbr hh
      by_cases hlen : (getFilesInSnapshot db h0).length
          = ((getFilesInSnapshot db h0).filter (fun f => decide (f.path ≠ path))).length
      · rw [applyMut, deleteFile, if_neg hval] at hsid
        rw [hres] at hsid
        simp only at hsid
        rw [if_pos hlen] at hsid
        exact absurd hsid (by simp)
      · rw [applyMut, deleteFile_success_eval db p b path u h0 hval hres hlen] at hsid hdb
        simp only [OpOut.snapshotId, Option.some_inj] at hsid
        subst hsid
        subst hdb
        refine ⟨rfl, ?_, ?_, ?_, ?_⟩
        · exact DBWF_updateBranchHead _ p b _ (DBWF_createNew db p u _ _ hwf)
        · exact commit_findBranch db p u _ _ b r hbr
        · rw [mutDelta]
          exact commit_getFiles_self db p u _ _ b hwf.2
        · intro t2 ht2
          exact commit_getFiles_other db p u _ _ b t2 ht2
  | rmFolder path =>
    by_cases hval : b = "" ∨ path = "" ∨ u = ""
    · rw [applyMut, deleteFolder, if_pos hval] at hsid
      exact absurd hsid (by simp)
    · have hb : b ≠ "" := fun h => hval (Or.inl h)
      have hres : resolveSnapshotId db p (some b) = some h0 :=
        resolve_of_head db p b r h0 hb hbr hh
      by_cases hlen : (getFilesInSnapshot db h0).length
          = ((getFilesInSnapshot db h0).filter (fun f => !(strStartsWith f.path
              (if strEndsWith path "/" then path else path ++ "/")))).length
      · rw [applyMut, deleteFolder, if_neg hval] at hsid
        rw [hres] at hsid
        simp only at hsid
        rw [if_pos hlen] at hsid
        exact absurd hsid (by simp)
      · rw [applyMut, deleteFolder_success_eval db p b path u h0 hval hres hlen] at hsid hdb
        simp only [OpOut.snapshotId, Option.some_inj] at hsid
        subst hsid
        subst hdb
        refine ⟨rfl, ?_, ?_, ?_, ?_⟩
        · exact DBWF_updateBranchHead _ p b _ (DBWF_createNew db p u _ _ hwf)
        · exact commit_findBranch db p u _ _ b r hbr
        · rw [mutDelta]
          exact commit_getFiles_self db p u _ _ b hwf.2
        · intro t2 ht2
          exact commit_getFiles_other db p u _ _ b t2 ht2

/-- C3: along any sequence of successful mutations applied one at a time
to one branch whose head starts at `h0`, the branch head afterwards is the
snapshot created by the last mutation, and that snapshot's file set is the
initial head's file set with exactly the described deltas applied in
order; applied to every prefix of the sequence, this gives the property
after each mutation `i`. -/
theorem mutation_seq_head_and_delta (sha : Bytes → String) (p b u : String)
    (db db' : DB) (tr : List (Mut × Nat)) (r : BranchRow) (h0 : Nat)
    (hwf : DBWF db) (hbr : findBranch db p b = some r) (hh : r.head = some h0)
    (htr : MutTrace sha p b u db tr db') (hne : tr ≠ []) :
    ∃ q : Mut × Nat, tr.getLast? = some q ∧
      (∃ r', findBranch db' p b = some r' ∧ r'.head = some q.2) ∧
      getFilesInSnapshot db' q.2
        = tr.foldl (fun fs mm => mutDelta sha mm.1 fs) (getFilesInSnapshot db h0) := by
  induction tr generalizing db r h0 with
  | nil => exact absurd rfl hne
  | cons q0 rest ih =>
    obtain ⟨m, sid⟩ := q0
    cases htr with
    | cons hstep htr2 =>
      rename_i db1
      obtain ⟨hsid, hwf1, hbr1, hfiles, hold⟩ :=
        mutStep_effect sha p b u db db1 m sid h0 r hwf hbr hh hstep
      subst hsid
      cases rest with
      | nil =>
        cases htr2
        refine ⟨(m, db.nextId), rfl, ⟨_, hbr1, rfl⟩, ?_⟩
        simpa using hfiles
      | cons q1 rest1 =>
        have hne1 : q1 :: rest1 ≠ [] := by simp
        obtain ⟨q, hlast, hhead, hfold⟩ :=
          ih db1 { r with head := some db.nextId, updatedAt := db.now } db.nextId
            hwf1 hbr1 rfl htr2 hne1
        refine ⟨q, by rw [List.getLast?_cons_cons]; exact hlast, hhead, ?_⟩
        rw [List.foldl_cons, ← hfiles]
        exact hfold

/-- The state after deleting `x.txt` from `dbW`'s branch `main`. -/
def dbW3 : DB := (applyMut shaDemo "p1" "main" "u1" dbW (Mut.rmFile "x.txt")).db

/-- Witness for C3: a one-step trace deleting `x.txt` from the concrete
state `dbW`. -/
theorem mutation_seq_head_and_delta_w :
    ∃ q : Mut × Nat, [(Mut.rmFile "x.txt", 1)].getLast? = some q ∧
      (∃ r', findBranch dbW3 "p1" "main" = some r' ∧ r'.head = some q.2) ∧
      getFilesInSnapshot dbW3 q.2
        = [(Mut.rmFile "x.txt", 1)].foldl (fun fs mm => mutDelta shaDemo mm.1 fs)
            (getFilesInSnapshot dbW 0) :=
  mutation_seq_head_and_delta shaDemo "p1" "main" "u1" dbW dbW3
    [(Mut.rmFile "x.txt", 1)] ⟨"p1", "main", some 0, 0⟩ 0
    ⟨by decide, by decide⟩ (by decide) (by decide)
    (MutTrace.cons ⟨by decide, rfl⟩ (MutTrace.nil dbW3)) (by decide)

lemma likeMatch_percent (s : List Char) : likeMatch ['%'] s = true := by
  induction s with
  | nil => simp [likeMatch]
  | cons c s ih => simp [likeMatch, ih]

lemma likeMatch_lit_nil (c : Char) (ps : List Char) (hc0 : c ≠ '\\') (hc1 : c ≠ '%') :
    likeMatch (c :: ps) [] = false := by
  rw [likeMatch.eq_def]
  simp [hc0, hc1]

lemma likeMatch_lit_cons (c : Char) (ps : List Char) (d : Char) (s : List Char)
    (hc0 : c ≠ '\\') (hc1 : c ≠ '%') (hc2 : c ≠ '_') :
    likeMatch (c :: ps) (d :: s) = (decide (c = d) && likeMatch ps s) := by
  rw [likeMatch.eq_def]
  simp [hc0, hc1, hc2]

lemma likeMatch_lit (lit : List Char) (s : List Char)
    (h : ∀ c ∈ lit, c ≠ '%' ∧ c ≠ '_' ∧ c ≠ '\\') :
    likeMatch (lit ++ ['%']) s = lit.isPrefixOf s := by
  induction lit generalizing s with
  | nil => simp [likeMatch_percent, List.isPrefixOf]
  | cons c lit ih =>
    obtain ⟨hc1, hc2, hc0⟩ := h c (List.mem_cons_self _ _)
    have hrest : ∀ x ∈ lit, x ≠ '%' ∧ x ≠ '_' ∧ x ≠ '\\' :=
      fun x hx => h x (List.mem_cons_of_mem _ hx)
    cases s with
    | nil =>
      rw [List.cons_append, likeMatch_lit_nil c _ hc0 hc1]
      simp [List.isPrefixOf]
    | cons d s =>
      rw [List.cons_append, likeMatch_lit_cons c _ d s hc0 hc1 hc2, ih s hrest]
      by_cases hcd : c = d
      · subst hcd
        simp [List.isPrefixOf]
      · simp [List.isPrefixOf, hcd]

/-- A state whose snapshot `0` holds a backslash path `a\b/x` and its
escape-collapsed sibling `ab/x`. -/
def dbC9 : DB :=
  ⟨[⟨0, "p1", "u1", "t", 1, 2⟩],
   [(0, ⟨"a\\b/x", "h1", 1, 644⟩), (0, ⟨"ab/x", "h2", 1, 644⟩)],
   [⟨"p1", "main", some 0, 0⟩], [], 1, 9⟩

/-- Counterexample to C9 as stated: the base path `a\b` contains neither
`%` nor `_`, yet the program selects the escape-collapsed `ab/`-prefixed
row and not the row with the literal slash-terminated prefix `a\b/`,
because the backslash is PostgreSQL's default `LIKE` escape character —
so the selection is not the prefix filter the claim demands. -/
theorem getTree_like_selection_cex :
    (∀ c ∈ (stripSlashes "a\\b").toList, c ≠ '%' ∧ c ≠ '_') ∧
    getTreeSelectedRows dbC9 0 "a\\b" = [⟨"ab/x", "h2", 1, 644⟩] ∧
    (getFilesInSnapshot dbC9 0).filter
        (fun f => strStartsWith f.path (stripSlashes "a\\b" ++ "/"))
      = [⟨"a\\b/x", "h1", 1, 644⟩] ∧
    getTreeSelectedRows dbC9 0 "a\\b"
      ≠ (getFilesInSnapshot dbC9 0).filter
          (fun f => strStartsWith f.path (stripSlashes "a\\b" ++ "/")) := by
  have h1 : getTreeSelectedRows dbC9 0 "a\\b" = [⟨"ab/x", "h2", 1, 644⟩] := by
    simp [getTreeSelectedRows, getFilesInSnapshot, dbC9, getTreeLikePre, stripSlashes,
      likeMatch]
  have h2 : (getFilesInSnapshot dbC9 0).filter
      (fun f => strStartsWith f.path (stripSlashes "a\\b" ++ "/"))
      = [⟨"a\\b/x", "h1", 1, 644⟩] := by decide
  refine ⟨by decide, h1, h2, ?_⟩
  rw [h1, h2]
  decide

/-- C9 (amended): `getTree`'s row selection is a true slash-terminated
prefix match for every base path whose normalization contains no `%`, no
`_` and no backslash (PostgreSQL's default `LIKE` escape character) — all
rows when the base path is empty — but for a base path containing a
metacharacter the unescaped interpolation into the `LIKE` pattern also
selects rows that do not start with the normalized base path plus `/`. -/
theorem getTree_like_selection :
    (∀ (db : DB) (sid : Nat) (basePath : String),
        (∀ c ∈ (stripSlashes basePath).toList, c ≠ '%' ∧ c ≠ '_' ∧ c ≠ '\\') →
        getTreeSelectedRows db sid basePath
          = if stripSlashes basePath = "" then getFilesInSnapshot db sid
            else (getFilesInSnapshot db sid).filter
                (fun f => strStartsWith f.path (stripSlashes basePath ++ "/"))) ∧
    (∃ f ∈ getTreeSelectedRows dbW4 0 "a%",
        strStartsWith f.path (stripSlashes "a%" ++ "/") = false) := by
  constructor
  · intro db sid basePath hmeta
    unfold getTreeSelectedRows
    by_cases hb : stripSlashes basePath = ""
    · rw [if_pos hb]
      have hpre : getTreeLikePre basePath = "" := by rw [getTreeLikePre]; simp [hb]
      rw [hpre]
      apply List.filter_eq_self.mpr
      intro f _
      have h1 : (("" : String) ++ "%").toList = ['%'] := rfl
      rw [h1, likeMatch_percent]
    · rw [if_neg hb]
      have hpre : getTreeLikePre basePath = stripSlashes basePath ++ "/" := by
        rw [getTreeLikePre]; simp [hb]
      rw [hpre]
      apply List.filter_congr
      intro f _
      have htl : ((stripSlashes basePath ++ "/") ++ "%").toList
          = (stripSlashes basePath ++ "/").toList ++ ['%'] := by
        simp [String.toList]
      rw [htl, likeMatch_lit]
      · rfl
      · intro c hc
        have hc2 : c ∈ (stripSlashes basePath).toList ++ ['/'] := by
          simpa [String.toList] using hc
        rcases List.mem_append.mp hc2 with hcl | hcr
        · exact hmeta c hcl
        · rw [List.mem_singleton] at hcr
          subst hcr
          exact ⟨by decide, by decide, by decide⟩
  · refine ⟨⟨"a/b/c/d.txt", "h1", 1, 644⟩, ?_, by decide⟩
    simp [getTreeSelectedRows, getFilesInSnapshot, dbW4, getTreeLikePre, stripSlashes,
      likeMatch]

/-- A fresh project `p1`: no snapshots, branch `main` with a null head,
empty blob store. -/
def dbC1 : DB := ⟨[], [], [⟨"p1", "main", none, 0⟩], [], 0, 5⟩

/-- The bytes of `"hello"`. -/
def helloBytes : Bytes := [104, 101, 108, 108, 111]

/-- The state `createFile` leaves behind on `dbC1` when the content's
digest is `h`. -/
def dbAfter (h : String) : DB :=
  ⟨[⟨0, "p1", "u1", "Create file: " ++ "README.md", 5, 1⟩],
   [(0, ⟨"README.md", h, 5, 644⟩)],
   [⟨"p1", "main", some 0, 5⟩],
   [("p1" ++ "/" ++ h, helloBytes)], 1, 5⟩

/-- C1 (the code violates the round-trip): on a fresh project, a
successful `createFile` of `README.md` stores the bytes under the upload
key `{projectId}/{hash}` and records `hash = sha(content)`, but the
following `getBlob` — with no intervening mutation — downloads from
`{projectId}/{snapshotId}/{hash}`, a key distinct from the upload key, so
its `content` field is null instead of the uploaded bytes. -/
theorem createFile_getBlob_key_mismatch (sha : Bytes → String) :
    (createFile sha dbC1 "p1" "main" "README.md" helloBytes "u1" true).status = 201 ∧
    (createFile sha dbC1 "p1" "main" "README.md" helloBytes "u1" true).db
      = dbAfter (sha helloBytes) ∧
    lookupBlob (dbAfter (sha helloBytes)).blobStore ("p1" ++ "/" ++ sha helloBytes)
      = some helloBytes ∧
    ("p1" ++ "/" ++ sha helloBytes) ≠ ("p1" ++ "/" ++ toString (0 : Nat) ++ "/"
      ++ sha helloBytes) ∧
    (getBlob (dbAfter (sha helloBytes)) "p1" (some "main") "README.md").status = 200 ∧
    (getBlob (dbAfter (sha helloBytes)) "p1" (some "main") "README.md").hash
      = some (sha helloBytes) ∧
    (getBlob (dbAfter (sha helloBytes)) "p1" (some "main") "README.md").content = none := by
  have hkeys : ("p1" ++ "/" ++ sha helloBytes)
      ≠ ("p1" ++ "/" ++ toString (0 : Nat) ++ "/" ++ sha helloBytes) := by
    intro heq
    have hlen := congrArg String.length heq
    have l1 : ("p1" : String).length = 2 := rfl
    have l2 : ("/" : String).length = 1 := rfl
    have l3 : (toString (0 : Nat)).length = 1 := rfl
    simp [String.length_append, l1, l2, l3] at hlen
    omega
  have hcur : currentFiles dbC1 "p1" "main" = [] := by decide
  have hcf : createFile sha dbC1 "p1" "main" "README.md" helloBytes "u1" true
      = ⟨201, some 0, dbAfter (sha helloBytes)⟩ := by
    rw [createFile_success_eval sha dbC1 "p1" "main" "README.md" helloBytes "u1" (by decide),
      hcur]
    simp [dbUpF, upsertBlob, createNewSnapshot, updateBranchHead, dbC1, dbAfter, helloBytes]
  have hgb : getBlob (dbAfter (sha helloBytes)) "p1" (some "main") "README.md"
      = ⟨200, some "README.md", some (sha helloBytes), some 5, some 644,
          lookupBlob (dbAfter (sha helloBytes)).blobStore
            ("p1" ++ "/" ++ toString (0 : Nat) ++ "/" ++ sha helloBytes)⟩ := by
    simp [getBlob, resolveSnapshotId, findBranch, dbAfter, getFilesInSnapshot]
  refine ⟨by rw [hcf], by rw [hcf], ?_, hkeys, by rw [hgb], by rw [hgb], ?_⟩
  · simp [dbAfter, lookupBlob]
  · rw [hgb]
    show lookupBlob [("p1" ++ "/" ++ sha helloBytes, helloBytes)] _ = none
    rw [lookupBlob, if_neg hkeys, lookupBlob]

end GitStack
